import Mathlib

/-!
Verification development for the chartgen repository.

We shallowly embed the three core functions of the code base:

* `analyzeSchema` / `inferType`   (src/components/JsonUploader.tsx)
* `generateChartConfig`           (src/components/Chat.tsx)
* `transformData`                 (src/components/ChartPreview.tsx)

together with the data pipeline encoded literally inside the source text
emitted by `generateComponentCode` (src/components/CodeGenerator.tsx),
modelled here as `generatedComponentTransform`.

Modelling conventions for JavaScript runtime semantics:
* JS numbers are modelled as exact rationals (`JsNum`); IEEE-754 rounding is
  not modelled.
* `String(x)` for non-integral numbers, nested arrays and locale-dependent
  behaviour of `toLowerCase`/`localeCompare` is modelled by total Lean
  functions that agree with JS on the ASCII / integer-valued inputs the
  claims exercise; each such model is noted at its definition.
* `new Date(s)` is modelled as strict parsing of a full `YYYY-MM-DD` string
  (evaluated in the UTC time zone); all other inputs give an invalid date.
-/

namespace ChartGen

/-- Field type tags of src/types as used by `inferType` and `typeColors` in
JsonUploader.tsx: number, number-string, string, date, boolean, object,
array, null, mixed, unknown. -/
inductive FieldType where
  | number | numberString | string | date | boolean | object | array | null | mixed | unknown
deriving DecidableEq, Repr, BEq

/-- Chart types of `ChartConfig['chartType']`: line, bar, pie, scatter. -/
inductive ChartType where
  | line | bar | pie | scatter
deriving DecidableEq, Repr, BEq

/-- Group-by buckets of `ChartConfig['groupBy']` (the JS value `null` is
modelled by `Option`): day, week, month, year. -/
inductive GroupBy where
  | day | week | month | year
deriving DecidableEq, Repr, BEq

/-- Aggregations of `ChartConfig['aggregate']`: sum, average, count, max, min. -/
inductive Agg where
  | sum | average | count | max | min
deriving DecidableEq, Repr, BEq

/-- Exact rational model of a JS number, kept in lowest terms with a
positive denominator by the smart constructor `JsNum.normalize`, so that
structural equality coincides with numeric equality.  IEEE-754 rounding of
the JS runtime is not modelled. -/
structure JsNum where
  num : Int
  den : Nat
deriving DecidableEq, Repr

/-- Build the canonical representative of `n / d` (`d ≠ 0` expected; the
unreachable `d = 0` is mapped to `0`). -/
def JsNum.normalize (n : Int) (d : Nat) : JsNum :=
  if d == 0 then { num := 0, den := 1 }
  else
    let g := Nat.gcd n.natAbs d
    { num := n / (g : Int), den := d / g }

instance : OfNat JsNum n := ⟨{ num := (n : Int), den := 1 }⟩

instance : NatCast JsNum := ⟨fun n => { num := (n : Int), den := 1 }⟩

def JsNum.add (a b : JsNum) : JsNum :=
  JsNum.normalize (a.num * (b.den : Int) + b.num * (a.den : Int)) (a.den * b.den)

def JsNum.mul (a b : JsNum) : JsNum :=
  JsNum.normalize (a.num * b.num) (a.den * b.den)

/-- Division; the unreachable division by zero is mapped to `0` (the JS
runtime would give `Infinity`/`NaN`, but no reachable code path divides by
zero: `average` divides by a bucket size, which is at least one). -/
def JsNum.div (a b : JsNum) : JsNum :=
  if b.num == 0 then { num := 0, den := 1 }
  else
    JsNum.normalize
      (a.num * (b.den : Int) * (if b.num < 0 then -1 else 1))
      (a.den * b.num.natAbs)

instance : Add JsNum := ⟨JsNum.add⟩

instance : Mul JsNum := ⟨JsNum.mul⟩

instance : Div JsNum := ⟨JsNum.div⟩

/-- Strict numeric comparison (denominators are positive). -/
def JsNum.ltb (a b : JsNum) : Bool :=
  decide (a.num * (b.den : Int) < b.num * (a.den : Int))

/-- Floor of a rational (Euclidean division by the positive denominator). -/
def JsNum.floor (q : JsNum) : Int :=
  q.num / (q.den : Int)

/-- Lower-casing by characters; JS `toLowerCase` agrees with `Char.toLower`
on the ASCII inputs the claims exercise. -/
def strToLower (s : String) : String :=
  String.mk (s.data.map Char.toLower)

/-- Code-point lexicographic strict order on character lists. -/
def charListLt : List Char → List Char → Bool
  | _, [] => false
  | [], _ :: _ => true
  | a :: as, b :: bs =>
    a.toNat < b.toNat || (a.toNat == b.toNat && charListLt as bs)

/-- Code-point lexicographic strict order on strings, the model of the
`localeCompare`-based ascending sort (bucket labels are ASCII). -/
def strLtB (a b : String) : Bool :=
  charListLt a.data b.data

/-- JSON runtime values (the `unknown` payload of a parsed data row). -/
inductive JsVal where
  | vnull
  | vbool (b : Bool)
  | vnum (q : JsNum)
  | vstr (s : String)
  | varr (xs : List JsVal)
  | vobj (fs : List (String × JsVal))

/-- A data row, `Record<string, unknown>` in src/types; JS object key order
is insertion order, modelled by an association list with distinct keys. -/
abbrev DataRow := List (String × JsVal)

/-- Schema field record produced by `analyzeSchema`; the source field `type`
is called `ftype` here because `type` is a Lean keyword. -/
structure SchemaField where
  name : String
  ftype : FieldType
  types : List FieldType
  coverage : Int
  samples : List String
deriving DecidableEq, Repr

/-- The inline filter record of `ChartConfig['filter']`. -/
structure ChartFilter where
  field : String
  value : String
deriving DecidableEq, Repr

/-- Chart configuration produced by `generateChartConfig` in Chat.tsx. -/
structure ChartConfig where
  chartType : ChartType
  xField : String
  yField : String
  labelField : Option String
  groupBy : Option GroupBy
  filter : Option ChartFilter
  aggregate : Agg
  color : String
  title : String
deriving DecidableEq, Repr

/-- Output record of `transformData` in ChartPreview.tsx. -/
structure TransformedData where
  labels : List String
  values : List JsNum
deriving DecidableEq, Repr

/-- Property access `row[k]`; absent keys give JS `undefined`, modelled as
`none`. -/
def jsLookup (row : DataRow) (k : String) : Option JsVal :=
  (row.find? (fun e => e.1 == k)).map (·.2)

/-- Whether `nee` is a leading run of `hay` (character lists). -/
def isPrefixList : List Char → List Char → Bool
  | [], _ => true
  | _ :: _, [] => false
  | a :: as, b :: bs => a == b && isPrefixList as bs

/-- Whether `nee` occurs as a contiguous run inside `hay`. -/
def substrList (nee : List Char) : List Char → Bool
  | [] => nee.isEmpty
  | c :: t => isPrefixList nee (c :: t) || substrList nee t

/-- JS `s.includes(sub)`. -/
def jsIncludes (s sub : String) : Bool :=
  substrList sub.data s.data

/-- JS truthiness of a value: `undefined`, `null`, `false`, `0`, `NaN` and
`''` are falsy, everything else truthy. -/
def jsTruthyV : JsVal → Bool
  | .vnull => false
  | .vbool b => b
  | .vnum q => !(q == 0)
  | .vstr s => !(s == "")
  | .varr _ => true
  | .vobj _ => true

/-- JS `String(q)` for a number. Model: exact for integer-valued numbers
(the only numbers any claim stringifies); non-integral rationals are
rendered as `num/den`, standing in for JS decimal notation. -/
def ratToString (q : JsNum) : String :=
  if q.den == 1 then toString q.num else toString q.num ++ "/" ++ toString q.den

/-- Shallow JS stringification used for elements inside `Array#join`;
nested arrays/objects are approximated (no claim exercises them). -/
def jsAtomString : JsVal → String
  | .vnull => ""
  | .vbool true => "true"
  | .vbool false => "false"
  | .vnum q => ratToString q
  | .vstr s => s
  | .varr _ => ""
  | .vobj _ => "[object Object]"

/-- JS `String(v)` for a defined value. -/
def jsToString : JsVal → String
  | .vnull => "null"
  | .vbool true => "true"
  | .vbool false => "false"
  | .vnum q => ratToString q
  | .vstr s => s
  | .varr xs => String.intercalate "," (xs.map jsAtomString)
  | .vobj _ => "[object Object]"

/-- JS `String(row[k])` including the `undefined` case of an absent key. -/
def jsToStringU : Option JsVal → String
  | none => "undefined"
  | some v => jsToString v

/-- JS `String(row[k] || '')`: falsy values collapse to the empty string
before stringification. -/
def jsStrOrEmpty : Option JsVal → String
  | none => ""
  | some v => if jsTruthyV v then jsToString v else ""

/-- Numeric value of a digit list (most significant first). -/
def digitsToNat (ds : List Char) : Nat :=
  ds.foldl (fun a c => a * 10 + (c.toNat - 48)) 0

/-- JS `parseFloat(s) || 0`: parse a leading optional-sign decimal number
(leading whitespace skipped); `NaN` and `0` both collapse to `0` under
`|| 0`, so a single total function into `JsNum` is faithful. The exponent
and `Infinity` forms of `parseFloat` are outside the model (no claim uses
them). -/
def jsParseFloatOr0 (s : String) : JsNum :=
  let cs := s.data.dropWhile (fun c => c.isWhitespace)
  let (sgn, cs) : Int × List Char :=
    match cs with
    | '-' :: t => (-1, t)
    | '+' :: t => (1, t)
    | t => (1, t)
  let (intPart, cs) := cs.span (fun c => c.isDigit)
  let fracPart :=
    match cs with
    | '.' :: t => t.takeWhile (fun c => c.isDigit)
    | _ => []
  if intPart.isEmpty && fracPart.isEmpty then 0
  else
    JsNum.normalize
      (sgn * ((digitsToNat intPart : Int) * (10 : Int) ^ fracPart.length +
        (digitsToNat fracPart : Int)))
      ((10 : Nat) ^ fracPart.length)

/-- Days in a month under the Gregorian leap rule. -/
def daysInMonth (y : Int) (m : Nat) : Nat :=
  if m == 2 then
    if y % 4 == 0 && (y % 100 != 0 || y % 400 == 0) then 29 else 28
  else if m == 4 || m == 6 || m == 9 || m == 11 then 30
  else 31

/-- Model of `new Date(s)` for strings: a valid date exactly when `s` is a
full `YYYY-MM-DD` string with an in-range month and day (read as UTC, the
assumed environment time zone); every other string is an invalid date. -/
def jsParseDate (s : String) : Option (Int × Nat × Nat) :=
  match s.data with
  | [y1, y2, y3, y4, '-', m1, m2, '-', d1, d2] =>
    if (y1.isDigit && y2.isDigit && y3.isDigit && y4.isDigit &&
        m1.isDigit && m2.isDigit && d1.isDigit && d2.isDigit) then
      let y : Int := (digitsToNat [y1, y2, y3, y4] : Nat)
      let m := digitsToNat [m1, m2]
      let d := digitsToNat [d1, d2]
      if 1 ≤ m && m ≤ 12 && 1 ≤ d && d ≤ daysInMonth y m then some (y, m, d)
      else none
    else none
  | _ => none

/-- JS `str.padStart(2, '0')`. -/
def padTwo (s : String) : String :=
  if s.length < 2 then String.mk (List.replicate (2 - s.length) '0') ++ s else s

/-- Month bucket key of ChartPreview.tsx:
`` `${date.getFullYear()}-${String(date.getMonth() + 1).padStart(2, '0')}` ``. -/
def fmtMonthKey (y : Int) (m : Nat) : String :=
  toString y ++ "-" ++ padTwo (toString m)

/-- Week bucket key of ChartPreview.tsx:
`` `${date.getFullYear()}-W${Math.ceil(date.getDate() / 7)}` ``. -/
def fmtWeekKey (y : Int) (d : Nat) : String :=
  toString y ++ "-W" ++ toString ((d + 6) / 7)

/-- Filter step of `transformData` (ChartPreview.tsx lines 42–47): when a
filter is configured, keep the rows where
`String(item[filter.field]).toLowerCase() === String(filter.value).toLowerCase()`
(the config's `value` is already a string, so `String(value)` is `value`). -/
def applyFilterStep (data : List DataRow) (config : ChartConfig) : List DataRow :=
  match config.filter with
  | none => data
  | some f =>
    data.filter (fun item => strToLower (jsToStringU (jsLookup item f.field)) == strToLower f.value)

/-- Bucket key of one row in `transformData` (ChartPreview.tsx lines 54–72):
start from `String(item[xField] || '')`; for month/year/week grouping of a
non-empty key that parses as a date, replace it by the formatted bucket key,
otherwise leave the raw string unchanged (also for `day` grouping). -/
def previewGroupKey (config : ChartConfig) (item : DataRow) : String :=
  let key := jsStrOrEmpty (jsLookup item config.xField)
  match config.groupBy with
  | some .month =>
    if key == "" then key else
      match jsParseDate key with
      | some (y, m, _) => fmtMonthKey y m
      | none => key
  | some .year =>
    if key == "" then key else
      match jsParseDate key with
      | some (y, _, _) => toString y
      | none => key
  | some .week =>
    if key == "" then key else
      match jsParseDate key with
      | some (y, _, d) => fmtWeekKey y d
      | none => key
  | _ => key

/-- Insertion into the `groups` record (ChartPreview.tsx lines 74–78): JS
object insertion order for fresh keys, `push` onto the existing list
otherwise.  (`Object.entries` reorders integer-like keys, but the final
output order is fixed by the sort over distinct keys, so insertion order is
a faithful model of the observable result.) -/
def groupInsert : List (String × List DataRow) → String → DataRow → List (String × List DataRow)
  | [], k, r => [(k, [r])]
  | (k', rs) :: t, k, r =>
    if k' == k then (k', rs ++ [r]) :: t
    else (k', rs) :: groupInsert t k r

/-- Grouping fold of `transformData`: bucket the retained rows by key. -/
def buildGroups (config : ChartConfig) (processed : List DataRow) : List (String × List DataRow) :=
  processed.foldl (fun gs item => groupInsert gs (previewGroupKey config item) item) []

/-- Per-bucket numeric values (ChartPreview.tsx line 82):
`items.map(i => parseFloat(String(i[yField])) || 0)`. -/
def bucketValues (items : List DataRow) (yField : String) : List JsNum :=
  items.map (fun i => jsParseFloatOr0 (jsToStringU (jsLookup i yField)))

/-- Aggregation switch of `transformData` (ChartPreview.tsx lines 84–100).
Buckets are never empty (every group receives at least the row that created
it), so the `[]` alternatives of max/min — JS `-Infinity`/`Infinity` — and
the `0/0` of average are unreachable defaults. -/
def aggregateValue (agg : Agg) (items : List DataRow) (yField : String) : JsNum :=
  let values := bucketValues items yField
  match agg with
  | .average => (values.foldl (· + ·) 0) / (values.length : JsNum)
  | .count => (items.length : JsNum)
  | .max =>
    match values with
    | [] => 0
    | v :: t => t.foldl (fun a b => if JsNum.ltb a b then b else a) v
  | .min =>
    match values with
    | [] => 0
    | v :: t => t.foldl (fun a b => if JsNum.ltb b a then b else a) v
  | .sum => values.foldl (· + ·) 0

/-- Insert a labelled value into a list sorted ascending by label. -/
def insertByLabel (p : String × JsNum) : List (String × JsNum) → List (String × JsNum)
  | [] => [p]
  | q :: t => if strLtB q.1 p.1 then q :: insertByLabel p t else p :: q :: t

/-- Ascending sort by label (ChartPreview.tsx line 105:
`aggregated.sort((a, b) => a.label.localeCompare(b.label))`), modelled as
insertion sort under code-point lexicographic order; bucket labels are
distinct, so any correct ascending sort is observably the same. -/
def sortByLabel : List (String × JsNum) → List (String × JsNum)
  | [] => []
  | p :: t => insertByLabel p (sortByLabel t)

/-- The live-preview transformer `transformData` of ChartPreview.tsx
(lines 36–117).  The `!data || !config` null guard of the source is
subsumed by typing; the pipeline is: filter, then — when `config.groupBy`
and `config.xField` are both truthy — group, aggregate and sort, otherwise
map the retained rows directly to labels and values. -/
def transformData (data : List DataRow) (config : ChartConfig) : TransformedData :=
  let processed := applyFilterStep data config
  if config.groupBy.isSome && !(config.xField == "") then
    let groups := buildGroups config processed
    let aggregated := groups.map (fun g => (g.1, aggregateValue config.aggregate g.2 config.yField))
    let sorted := sortByLabel aggregated
    { labels := sorted.map (·.1), values := sorted.map (·.2) }
  else
    { labels := processed.map (fun d => jsStrOrEmpty (jsLookup d config.xField)),
      values := processed.map (fun d => jsParseFloatOr0 (jsToStringU (jsLookup d config.yField))) }

/-- Model of `new Date(d.xField as string)` as emitted by
`generateComponentCode`: the raw property value is fed to the `Date`
constructor, so only string values can produce a valid date (constructing a
date from an epoch number is outside the model; no claim exercises it). -/
def jsNewDateVal : Option JsVal → Option (Int × Nat × Nat)
  | some (.vstr s) => jsParseDate s
  | _ => none

/-- Bucket key computed by the source text emitted in
`generateComponentCode` (CodeGenerator, `keyExtraction` switch): unlike the
preview there is no `isNaN` validity guard and no `|| ''` default, so an
invalid date yields the literal interpolations of `NaN`
(`"NaN-NaN"`, `"NaN"`, `"NaN-WNaN"`), and `day` grouping yields
`String(d.xField)` (which is `"undefined"` for an absent field). -/
def generatedGroupKey (config : ChartConfig) (item : DataRow) : String :=
  match config.groupBy with
  | some .month =>
    match jsNewDateVal (jsLookup item config.xField) with
    | some (y, m, _) => fmtMonthKey y m
    | none => "NaN-NaN"
  | some .year =>
    match jsNewDateVal (jsLookup item config.xField) with
    | some (y, _, _) => toString y
    | none => "NaN"
  | some .week =>
    match jsNewDateVal (jsLookup item config.xField) with
    | some (y, _, d) => fmtWeekKey y d
    | none => "NaN-WNaN"
  | _ => jsToStringU (jsLookup item config.xField)

/-- Data pipeline encoded as literal source text by `generateComponentCode`
(CodeGenerator): filter against the generation-time lower-cased literal
`config.filter.value.toLowerCase()`, then — when `config.groupBy` is set
(the emitted guard does not test `xField`) — group by `generatedGroupKey`,
aggregate with the same switch as the preview and sort ascending by label;
without grouping, labels are `String(d.xField)` with no `|| ''` default. -/
def generatedComponentTransform (config : ChartConfig) (data : List DataRow) : TransformedData :=
  let filtered :=
    match config.filter with
    | none => data
    | some f =>
      data.filter (fun d => strToLower (jsToStringU (jsLookup d f.field)) == strToLower f.value)
  if config.groupBy.isSome then
    let groups := filtered.foldl (fun gs d => groupInsert gs (generatedGroupKey config d) d) []
    let aggregated := groups.map (fun g => (g.1, aggregateValue config.aggregate g.2 config.yField))
    let sorted := sortByLabel aggregated
    { labels := sorted.map (·.1), values := sorted.map (·.2) }
  else
    { labels := filtered.map (fun d => jsToStringU (jsLookup d config.xField)),
      values := filtered.map (fun d => jsParseFloatOr0 (jsToStringU (jsLookup d config.yField))) }

/-- JS `\w` character class: ASCII letters, digits and underscore. -/
def isWordChar (c : Char) : Bool :=
  c.isAlphanum || c == '_'

/-- Attempt to match the tail of the filter pattern
`\s+(\w+)\s*=\s*["']?(\w+)["']?` directly after a matched keyword.
Greedy runs are maximal-munch; since `\w`, `\s`, `=` and the quotes are
pairwise disjoint character classes, maximal-munch coincides with the
backtracking regex semantics. -/
def matchFilterTail (cs : List Char) : Option (String × String) :=
  let (ws1, cs) := cs.span (fun c => c.isWhitespace)
  if ws1.isEmpty then none
  else
    let (fieldCs, cs) := cs.span isWordChar
    if fieldCs.isEmpty then none
    else
      let cs := cs.dropWhile (fun c => c.isWhitespace)
      match cs with
      | '=' :: cs =>
        let cs := cs.dropWhile (fun c => c.isWhitespace)
        let cs := match cs with
          | '"' :: t => t
          | '\'' :: t => t
          | t => t
        let (valueCs, _) := cs.span isWordChar
        if valueCs.isEmpty then none
        else some (String.mk fieldCs, String.mk valueCs)
      | _ => none

/-- Attempt the full filter pattern at one position, trying the keyword
alternatives in the regex's order: `only`, `where`, `filter`. -/
def matchFilterAt (cs : List Char) : Option (String × String) :=
  let tryKw (kw : String) : Option (String × String) :=
    if isPrefixList kw.data cs then matchFilterTail (cs.drop kw.length) else none
  match tryKw "only" with
  | some r => some r
  | none =>
    match tryKw "where" with
    | some r => some r
    | none => tryKw "filter"

/-- Leftmost match of the filter regex
`/(?:only|where|filter)\s+(\w+)\s*=\s*["']?(\w+)["']?/i` of Chat.tsx
(line 87) over the already lower-cased message. -/
def findFilterMatch : List Char → Option (String × String)
  | [] => none
  | c :: t =>
    match matchFilterAt (c :: t) with
    | some r => some r
    | none => findFilterMatch t

/-- Chart type detection of `generateChartConfig` (Chat.tsx lines 45–48):
sequential unconditional overwrites starting from `line`. -/
def detectChartType (msg : String) : ChartType :=
  let ct : ChartType := .line
  let ct := if jsIncludes msg "bar" then .bar else ct
  let ct := if jsIncludes msg "pie" || jsIncludes msg "donut" then .pie else ct
  let ct := if jsIncludes msg "scatter" || jsIncludes msg "point" then .scatter else ct
  ct

/-- JS truthiness of the `string | null` field candidates: `null` and `''`
are falsy. -/
def strTruthy : Option String → Bool
  | none => false
  | some s => !(s == "")

/-- One iteration of the field-mention loop of `generateChartConfig`
(Chat.tsx lines 54–64): a field whose lower-cased name occurs in the
message becomes the x candidate if it is date/string typed and no truthy x
candidate exists yet, and unconditionally overwrites the y candidate if it
is number/number-string typed. -/
def scanStep (msg : String) (xy : Option String × Option String) (f : SchemaField) :
    Option String × Option String :=
  if jsIncludes msg (strToLower f.name) then
    (if (f.ftype == .date || f.ftype == .string) && !(strTruthy xy.1)
     then some f.name else xy.1,
     if f.ftype == .number || f.ftype == .numberString
     then some f.name else xy.2)
  else xy

/-- Field-mention scan of `generateChartConfig`: one pass over the schema. -/
def scanFields (msg : String) (schema : List SchemaField) : Option String × Option String :=
  schema.foldl (scanStep msg) (none, none)

/-- JS `a || b` on a nullable string: the first operand unless it is `null`
or `''`. -/
def jsOrStr (a : Option String) (b : String) : String :=
  match a with
  | none => b
  | some s => if s == "" then b else s

/-- Grouping detection of `generateChartConfig` (Chat.tsx lines 79–83):
four independent unconditional overwrites, evaluated month, week, day,
year. -/
def detectGroupBy (msg : String) : Option GroupBy :=
  let g : Option GroupBy := none
  let g := if jsIncludes msg "by month" then some .month else g
  let g := if jsIncludes msg "by week" then some .week else g
  let g := if jsIncludes msg "by day" then some .day else g
  let g := if jsIncludes msg "by year" then some .year else g
  g

/-- Aggregation detection (Chat.tsx lines 93–97): default `sum`, then
independent overwrites in order average, count, max, min. -/
def detectAggregate (msg : String) : Agg :=
  let a : Agg := .sum
  let a := if jsIncludes msg "average" || jsIncludes msg "avg" || jsIncludes msg "mean"
           then .average else a
  let a := if jsIncludes msg "count" then .count else a
  let a := if jsIncludes msg "max" then .max else a
  let a := if jsIncludes msg "min" then .min else a
  a

/-- Color detection (Chat.tsx lines 100–105): default blue, then
independent overwrites red, green, purple, orange, pink. -/
def detectColor (msg : String) : String :=
  let c := "#3b82f6"
  let c := if jsIncludes msg "red" then "#ef4444" else c
  let c := if jsIncludes msg "green" then "#22c55e" else c
  let c := if jsIncludes msg "purple" then "#8b5cf6" else c
  let c := if jsIncludes msg "orange" then "#f97316" else c
  let c := if jsIncludes msg "pink" then "#ec4899" else c
  c

/-- X-field fallback `dateField?.name || stringField?.name ||
schema[0]?.name || ''` (Chat.tsx lines 67–71). -/
def fallbackX (schema : List SchemaField) : String :=
  jsOrStr ((schema.find? (fun f => f.ftype == .date)).map (·.name))
    (jsOrStr ((schema.find? (fun f => f.ftype == .string)).map (·.name))
      (jsOrStr (schema.head?.map (·.name)) ""))

/-- Y-field fallback `numberField?.name || schema[1]?.name || ''`
(Chat.tsx lines 73–76). -/
def fallbackY (schema : List SchemaField) : String :=
  jsOrStr ((schema.find? (fun f => f.ftype == .number || f.ftype == .numberString)).map (·.name))
    (jsOrStr ((schema.get? 1).map (·.name)) "")

/-- Body of `generateChartConfig` (Chat.tsx lines 42–117) after the schema
null guard: the pure resolution of a message against a (present, possibly
empty) schema.  The `xField || ''` / `yField || ''` collapses at the return
site are folded into the `jsOrStr` chains, which reproduce both the
mention-phase candidates and the typed fallbacks. -/
def resolveConfig (userMessage : String) (schema : List SchemaField) : ChartConfig :=
  let msg := strToLower userMessage
  let chartType := detectChartType msg
  let xy := scanFields msg schema
  let xField := jsOrStr xy.1 (fallbackX schema)
  let yField := jsOrStr xy.2 (fallbackY schema)
  { chartType := chartType
    xField := xField
    yField := yField
    labelField := if chartType == .pie then some xField else none
    groupBy := detectGroupBy msg
    filter := (findFilterMatch msg.data).map (fun p => { field := p.1, value := p.2 })
    aggregate := detectAggregate msg
    color := detectColor msg
    title := (if yField == "" then "Value" else yField) ++ " by " ++
             (if xField == "" then "Category" else xField) }

/-- The full `generateChartConfig` of Chat.tsx (lines 39–118): the schema
prop is `SchemaField[] | null`, and a `null` schema throws
`Error('No schema available')`, modelled as `Except`. -/
def generateChartConfig (schema : Option (List SchemaField)) (userMessage : String) :
    Except String ChartConfig :=
  match schema with
  | none => .error "No schema available"
  | some s => .ok (resolveConfig userMessage s)

/-- The fixed fallback message of the `catch` branch of `handleSubmit`
(Chat.tsx lines 144–149). -/
def fallbackMessage : String :=
  "Sorry, I had trouble understanding that. Could you rephrase? Try something like \"bar chart of sales by month\"."

/-- Lower-case chart-type token as interpolated into the response text. -/
def chartTypeName : ChartType → String
  | .line => "line"
  | .bar => "bar"
  | .pie => "pie"
  | .scatter => "scatter"

/-- Outcome of one chat submission past the input guards (Chat.tsx
`handleSubmit`, lines 131–149): on success an assistant response plus the
generated config, on a thrown resolution error the fixed fallback message
and no config — the error never escapes.  The response body's bullet lines
are summarised by their first line; only the success/fallback distinction
matters to any claim. -/
def handleSubmit (schema : Option (List SchemaField)) (userMessage : String) :
    String × Option ChartConfig :=
  match generateChartConfig schema userMessage with
  | .ok config =>
    ("I'll create a **" ++ chartTypeName config.chartType ++ " chart** for you:", some config)
  | .error _ => (fallbackMessage, none)

/-- Leading `YYYY-MM-DD` test of `inferType` (JsonUploader.tsx line 11):
`/^\d{4}-\d{2}-\d{2}/.test(value)` — a prefix match, not anchored at the
end. -/
def isDatePattern (s : String) : Bool :=
  match s.data with
  | y1 :: y2 :: y3 :: y4 :: '-' :: m1 :: m2 :: '-' :: d1 :: d2 :: _ =>
    y1.isDigit && y2.isDigit && y3.isDigit && y4.isDigit &&
    m1.isDigit && m2.isDigit && d1.isDigit && d2.isDigit
  | _ => false

/-- Test of `!isNaN(Number(value)) && value.trim() !== ''` (JsonUploader.tsx
line 12): after trimming, the whole string is an optional-sign decimal
number.  The hex/exponent/`Infinity` forms accepted by JS `Number` are
outside the model (no claim uses them). -/
def isNumericString (s : String) : Bool :=
  let cs := (s.data.dropWhile (fun c => c.isWhitespace)).reverse.dropWhile
    (fun c => c.isWhitespace) |>.reverse
  if cs.isEmpty then false
  else
    let cs := match cs with
      | '-' :: t => t
      | '+' :: t => t
      | t => t
    let (intPart, cs) := cs.span (fun c => c.isDigit)
    match cs with
    | [] => !intPart.isEmpty
    | '.' :: t =>
      let (fracPart, rest) := t.span (fun c => c.isDigit)
      rest.isEmpty && (!intPart.isEmpty || !fracPart.isEmpty)
    | _ => false

/-- Per-value type classification `inferType` of JsonUploader.tsx
(lines 5–17), with the source's check order: null, array, number, boolean,
string (date pattern, then numeric string), object. -/
def inferType : JsVal → FieldType
  | .vnull => .null
  | .varr _ => .array
  | .vnum _ => .number
  | .vbool _ => .boolean
  | .vstr s =>
    if isDatePattern s then .date
    else if isNumericString s then .numberString
    else .string
  | .vobj _ => .object

/-- Accumulated per-field statistics of `analyzeSchema`: the `types` set
(insertion-ordered, deduplicated), the occurrence count and up to five
deduplicated sample strings.  The two parallel records `fields` and
`sampleValues` of the source always share their key set, so one record is
a faithful merge. -/
structure FieldInfo where
  types : List FieldType
  count : Nat
  samples : List String
deriving DecidableEq, Repr

/-- Add a type to the insertion-ordered deduplicated type set. -/
def addTypeOnce (ts : List FieldType) (t : FieldType) : List FieldType :=
  if ts.contains t then ts else ts ++ [t]

/-- Sample update (JsonUploader.tsx lines 47–49): record
`String(value).slice(0, 50)` while fewer than five samples exist; the `Set`
deduplicates.  The `value !== null` guard skips null values (`undefined`
cannot occur in parsed JSON). -/
def updSamples (samples : List String) (v : JsVal) : List String :=
  if samples.length < 5 && !(v matches .vnull) then
    let s := String.mk ((jsToString v).data.take 50)
    if samples.contains s then samples else samples ++ [s]
  else samples

/-- Initial statistics for a field's first occurrence. -/
def initInfo (v : JsVal) : FieldInfo :=
  { types := [inferType v], count := 1, samples := updSamples [] v }

/-- Fold one object entry into the statistics record (JsonUploader.tsx
lines 36–50): existing keys are updated in place, fresh keys are appended
(JS object insertion order). -/
def stepEntry : List (String × FieldInfo) → String × JsVal → List (String × FieldInfo)
  | [], (k, v) => [(k, initInfo v)]
  | (k', info) :: rest, (k, v) =>
    if k' == k then
      (k', { types := addTypeOnce info.types (inferType v),
             count := info.count + 1,
             samples := updSamples info.samples v }) :: rest
    else (k', info) :: stepEntry rest (k, v)

/-- Entries iterated for one row (JsonUploader.tsx lines 33–36): the guard
`typeof item !== 'object' || item === null` skips primitives and null;
objects yield their entries and arrays — which are `typeof 'object'` — the
index-keyed entries of `Object.entries`. -/
def rowEntriesJs : JsVal → List (String × JsVal)
  | .vobj fs => fs
  | .varr xs => (xs.enum.map (fun p => (toString p.1, p.2)))
  | _ => []

/-- Statistics accumulation over all rows. -/
def analyzeFields (data : List JsVal) : List (String × FieldInfo) :=
  data.foldl (fun st row => (rowEntriesJs row).foldl stepEntry st) []

/-- JS `Math.round` for the nonnegative coverage ratio: round half up. -/
def jsRound (q : JsNum) : Int :=
  (q + { num := 1, den := 2 }).floor

/-- Schema analysis `analyzeSchema` of JsonUploader.tsx (lines 25–62): an
empty input is the validation error; otherwise one `SchemaField` per
distinct key in first-seen order, with the aggregate type (`mixed` when
several types were observed), the observed type set, the coverage
percentage `Math.round((count / data.length) * 100)` and the samples.
Returns the schema together with `rowCount = data.length`. -/
def analyzeSchema (data : List JsVal) : Except String (List SchemaField × Nat) :=
  if data.isEmpty then .error "Data must be a non-empty array of objects"
  else
    .ok ((analyzeFields data).map (fun e =>
      { name := e.1
        ftype := match e.2.types with
          | [t] => t
          | _ => .mixed
        types := e.2.types
        coverage := jsRound ((e.2.count : JsNum) / (data.length : JsNum) * 100)
        samples := e.2.samples }), data.length)

/-! ### Specification-side helper definitions

The following definitions are written from the wording of the spec (not
from the source); they are compared against the source translations above
in the claim theorems. -/

/-- Spec wording (claim C5): a schema field is "mentioned" when its name
appears case-insensitively as a substring of the text. -/
def mentionedIn (msg : String) (f : SchemaField) : Bool :=
  jsIncludes msg (strToLower f.name)

/-- Spec wording (claim C5): the first mentioned field, in schema order, of
type date-like-string or string. -/
def firstXCand (msg : String) : List SchemaField → Option SchemaField
  | [] => none
  | f :: t =>
    if mentionedIn msg f && (f.ftype == .date || f.ftype == .string) then some f
    else firstXCand msg t

/-- Spec wording (claim C5): the last mentioned field, in schema order, of
type number or numeric-string. -/
def lastYCand (msg : String) : List SchemaField → Option SchemaField
  | [] => none
  | f :: t =>
    match lastYCand msg t with
    | some g => some g
    | none =>
      if mentionedIn msg f && (f.ftype == .number || f.ftype == .numberString) then some f
      else none

/-- Spec wording (claim C9): whether a row contains a key, under the same
object/array entry reading as the accumulation. -/
def rowHasKey (row : JsVal) (k : String) : Bool :=
  (rowEntriesJs row).any (fun e => e.1 == k)

/-- Spec wording (claim C9): the number of input rows containing a key. -/
def rowsWithKey (data : List JsVal) (k : String) : Nat :=
  (data.filter (fun r => rowHasKey r k)).length

/-- Accumulated occurrence count of a key in a statistics record (`0` when
the key is absent); proof-side view of the `count` field. -/
def countOf (k : String) (st : List (String × FieldInfo)) : Nat :=
  match st.find? (fun e => e.1 == k) with
  | some e => e.2.count
  | none => 0

/-! ### Concrete inputs used by the claim theorems -/

/-- The schema of the spec's acceptance example: a date-like-string field
`date` and a number field `revenue`. -/
def schemaC4 : List SchemaField :=
  [{ name := "date", ftype := .date, types := [.date], coverage := 100,
     samples := ["2024-01-01"] },
   { name := "revenue", ftype := .number, types := [.number], coverage := 100,
     samples := ["10"] }]

/-- The three rows of the spec's acceptance example. -/
def rowsC4 : List DataRow :=
  [[("date", .vstr "2024-01-01"), ("revenue", .vnum 10)],
   [("date", .vstr "2024-01-15"), ("revenue", .vnum 20)],
   [("date", .vstr "2024-02-01"), ("revenue", .vnum 5)]]

/-- The month-grouped bar configuration resolved from the spec's example
request. -/
def cfgC1 : ChartConfig :=
  resolveConfig "bar chart of revenue by month" schemaC4

/-- A single row whose `date` value does not parse as a date. -/
def rowsC1 : List DataRow :=
  [[("date", .vstr "notadate"), ("revenue", .vnum 10)]]

/-- A configuration whose filter value is the literal string `undefined`. -/
def cfgC3U : ChartConfig :=
  { chartType := .bar, xField := "x", yField := "y", labelField := none,
    groupBy := none, filter := some { field := "status", value := "undefined" },
    aggregate := .sum, color := "#3b82f6", title := "t" }

/-- A schema whose first string field has the empty string as its name (a
legal JSON object key). -/
def schemaC5 : List SchemaField :=
  [{ name := "", ftype := .string, types := [.string], coverage := 100, samples := [] },
   { name := "a", ftype := .string, types := [.string], coverage := 100, samples := [] }]

/-- A schema whose only field is named by the empty string. -/
def schemaC10 : List SchemaField :=
  [{ name := "", ftype := .number, types := [.number], coverage := 100, samples := [] }]

/-- A configuration whose filter matches no row of the witness data. -/
def cfgC7W : ChartConfig :=
  { chartType := .line, xField := "x", yField := "y", labelField := none,
    groupBy := none, filter := some { field := "status", value := "closed" },
    aggregate := .sum, color := "#3b82f6", title := "t" }

/-- A dataset mixing an object row with a non-object row, for the coverage
witness. -/
def dataC9W : List JsVal :=
  [.vobj [("a", .vnum 1)], .vnum 5]

/-! ## Theorems -/

/-- C1: the live preview keeps an unparseable date string as its raw bucket
key, while the pipeline emitted by `generateComponentCode` — which omits the
preview's `isNaN(date.getTime())` guard — interpolates the invalid date as
the bucket key `"NaN-NaN"`.  Feeding the same single row through both
pipelines under the same month-grouped configuration therefore yields
different label sequences, contradicting the spec's requirement that the
generated artifact's semantics exactly match the preview. -/
theorem preview_generated_divergence :
    transformData rowsC1 cfgC1 = { labels := ["notadate"], values := [10] } ∧
    generatedComponentTransform cfgC1 rowsC1 = { labels := ["NaN-NaN"], values := [10] } ∧
    (transformData rowsC1 cfgC1).labels ≠ (generatedComponentTransform cfgC1 rowsC1).labels := by
  refine ⟨by decide, by decide, by decide⟩

/-- C2 counterexample: resolution against a present but empty schema does
not fail — `generateChartConfig` only throws on a `null` schema (`!schema`
is false for `[]`), so the claimed `IntentError` for an empty schema never
happens; a configuration with empty field names is returned instead. -/
theorem emptySchema_resolves :
    (generateChartConfig (some []) "bar chart of revenue").isOk = true ∧
    (resolveConfig "bar chart of revenue" []).xField = "" := by
  refine ⟨rfl, by decide⟩

/-- C2 amended: resolution fails exactly when the schema is absent
(`null`); with any present schema — empty included — it returns a
configuration, and in interactive use the absent-schema failure is caught
and surfaces as the fixed fallback message, never a crash. -/
theorem resolution_error_handling (userMessage : String) :
    (generateChartConfig none userMessage).isOk = false ∧
    (∀ schema : List SchemaField, (generateChartConfig (some schema) userMessage).isOk = true) ∧
    handleSubmit none userMessage = (fallbackMessage, none) := by
  exact ⟨rfl, fun _ => rfl, rfl⟩

/-- C3 counterexample: with filter value `"undefined"`, a row in which the
filter field is absent stringifies to `"undefined"`, matches the filter
value, and is kept — contradicting "all such rows are dropped". -/
theorem absent_field_row_kept :
    cfgC3U.filter = some { field := "status", value := "undefined" } ∧
    (jsLookup [("x", .vstr "a")] "status").isNone = true ∧
    transformData [[("x", .vstr "a")]] cfgC3U = { labels := ["a"], values := [0] } := by
  refine ⟨rfl, rfl, by decide⟩

/-- C4: the full acceptance example of the spec: the text
`"bar chart of revenue by month"` over `schemaC4` resolves to a bar chart
of `revenue` by `date` grouped by month with sum aggregation, and the
transform of the three example rows yields labels
`["2024-01", "2024-02"]` and values `[30, 5]`, sorted ascending. -/
theorem month_grouping_example :
    (resolveConfig "bar chart of revenue by month" schemaC4).chartType = .bar ∧
    (resolveConfig "bar chart of revenue by month" schemaC4).xField = "date" ∧
    (resolveConfig "bar chart of revenue by month" schemaC4).yField = "revenue" ∧
    (resolveConfig "bar chart of revenue by month" schemaC4).groupBy = some .month ∧
    (resolveConfig "bar chart of revenue by month" schemaC4).aggregate = .sum ∧
    transformData rowsC4 (resolveConfig "bar chart of revenue by month" schemaC4) =
      { labels := ["2024-01", "2024-02"], values := [30, 5] } := by
  refine ⟨by decide, by decide, by decide, by decide, by decide, by decide⟩

/-- C6: grouping detection is four independent unconditional overwrites
checked in the order month, week, day, year, so the resolved group-by
equals the reversed-priority cascade: year wins whenever `"by year"` is
present, then day, then week, then month, and no phrase yields `none`. -/
theorem groupBy_precedence (userMessage : String) (schema : List SchemaField) :
    (resolveConfig userMessage schema).groupBy =
      (if jsIncludes (strToLower userMessage) "by year" then some .year
       else if jsIncludes (strToLower userMessage) "by day" then some .day
       else if jsIncludes (strToLower userMessage) "by week" then some .week
       else if jsIncludes (strToLower userMessage) "by month" then some .month
       else none) := by
  show detectGroupBy (strToLower userMessage) = _
  unfold detectGroupBy
  cases hy : jsIncludes (strToLower userMessage) "by year" <;>
    cases hd : jsIncludes (strToLower userMessage) "by day" <;>
      cases hw : jsIncludes (strToLower userMessage) "by week" <;>
        cases hm : jsIncludes (strToLower userMessage) "by month" <;>
          simp [hy, hd, hw, hm]

lemma insertByLabel_length (p : String × JsNum) (l : List (String × JsNum)) :
    (insertByLabel p l).length = l.length + 1 := by
  induction l with
  | nil => rfl
  | cons q t ih =>
    unfold insertByLabel
    by_cases h : strLtB q.1 p.1 <;> simp [h, ih]

lemma sortByLabel_length (l : List (String × JsNum)) :
    (sortByLabel l).length = l.length := by
  induction l with
  | nil => rfl
  | cons p t ih => simp [sortByLabel, insertByLabel_length, ih]

/-- C8: the transform's labels and values always have the same length, and
that common length is the number of aggregated buckets when grouping is
active (group-by set and x-field non-empty), otherwise the number of rows
retained by the filter step. -/
theorem transform_lengths (rows : List DataRow) (config : ChartConfig) :
    (transformData rows config).labels.length = (transformData rows config).values.length ∧
    (transformData rows config).labels.length =
      (if config.groupBy.isSome && !(config.xField == "") then
        (buildGroups config (applyFilterStep rows config)).length
      else (applyFilterStep rows config).length) := by
  unfold transformData
  cases h : (config.groupBy.isSome && !(config.xField == "")) <;>
    simp [h, sortByLabel_length]

/-- C7: the transform is total by construction (it is a Lean function into
`TransformedData`) and degrades malformed input to defaults: a filter that
matches no row yields empty labels and values; without active grouping the
labels are the stringified x-values with `''` for absent/falsy fields and
the values are `parseFloat`-or-`0` of the y-values, in retained row order;
an absent x-field stringifies to `''` and an absent y-field parses to `0`. -/
theorem transform_total_defaults (rows : List DataRow) (config : ChartConfig) :
    (∀ f, config.filter = some f →
      (∀ r ∈ rows, (strToLower (jsToStringU (jsLookup r f.field)) == strToLower f.value) = false) →
      transformData rows config = { labels := [], values := [] }) ∧
    ((config.groupBy.isSome && !(config.xField == "")) = false →
      (transformData rows config).labels =
        (applyFilterStep rows config).map (fun d => jsStrOrEmpty (jsLookup d config.xField)) ∧
      (transformData rows config).values =
        (applyFilterStep rows config).map
          (fun d => jsParseFloatOr0 (jsToStringU (jsLookup d config.yField)))) ∧
    jsStrOrEmpty none = "" ∧ jsParseFloatOr0 (jsToStringU none) = 0 := by
  refine ⟨?_, ?_, rfl, by decide⟩
  · intro f hf hnone
    have hempty : applyFilterStep rows config = [] := by
      unfold applyFilterStep
      rw [hf]
      exact List.filter_eq_nil_iff.mpr (fun r hr => by simp [hnone r hr])
    unfold transformData
    rw [hempty]
    cases h : (config.groupBy.isSome && !(config.xField == "")) <;> simp [h, buildGroups, sortByLabel]
  · intro h
    unfold transformData
    rw [h]
    exact ⟨rfl, rfl⟩

/-- C7 witness: a filter for `status = closed` matches no row of a dataset
whose only row has `status = open`, and the transform returns empty labels
and values. -/
theorem transform_total_defaults_witness :
    transformData [[("status", .vstr "open"), ("y", .vnum 1)]] cfgC7W =
      { labels := [], values := [] } :=
  (transform_total_defaults [[("status", .vstr "open"), ("y", .vnum 1)]] cfgC7W).1
    { field := "status", value := "closed" } rfl (by decide)

/-- C3 amended: the filter step keeps exactly the rows whose filter-field
value, stringified and lower-cased, equals the stringified lower-cased
filter value.  A row in which the filter field is absent stringifies to
`"undefined"`, so it is dropped — except when the filter value itself
lower-cases to `"undefined"`, in which case every such row matches and is
kept (so "never matches" in the original claim is false in exactly that
case). -/
theorem filter_semantics (rows : List DataRow) (config : ChartConfig) (f : ChartFilter)
    (hf : config.filter = some f) :
    applyFilterStep rows config =
      rows.filter (fun r => strToLower (jsToStringU (jsLookup r f.field)) == strToLower f.value) ∧
    ∀ r ∈ rows, jsLookup r f.field = none →
      (r ∈ applyFilterStep rows config ↔ strToLower f.value = "undefined") := by
  have hstep : applyFilterStep rows config =
      rows.filter (fun r => strToLower (jsToStringU (jsLookup r f.field)) == strToLower f.value) := by
    unfold applyFilterStep
    rw [hf]
  refine ⟨hstep, fun r hr hnone => ?_⟩
  rw [hstep]
  constructor
  · intro hmem
    have := (List.mem_filter.mp hmem).2
    rw [hnone] at this
    have hb : ("undefined" == strToLower f.value) = true := this
    exact (eq_of_beq hb).symm
  · intro hval
    refine List.mem_filter.mpr ⟨hr, ?_⟩
    rw [hnone, hval]
    rfl

/-- C3 witness: a present field matching the filter value is kept, and an
absent field is kept exactly when the filter value is `"undefined"`. -/
theorem filter_semantics_witness :
    [] ∈ applyFilterStep [([] : DataRow)] cfgC3U :=
  ((filter_semantics [([] : DataRow)] cfgC3U { field := "status", value := "undefined" } rfl).2
    [] (List.mem_singleton.mpr rfl) rfl).mpr (by decide)

lemma mentionedIn_def (msg : String) (f : SchemaField) :
    mentionedIn msg f = jsIncludes msg (strToLower f.name) := rfl

lemma firstXCand_cons (msg : String) (f : SchemaField) (t : List SchemaField) :
    firstXCand msg (f :: t) =
      if mentionedIn msg f && (f.ftype == .date || f.ftype == .string) then some f
      else firstXCand msg t := rfl

lemma lastYCand_cons (msg : String) (f : SchemaField) (t : List SchemaField) :
    lastYCand msg (f :: t) =
      match lastYCand msg t with
      | some g => some g
      | none =>
        if mentionedIn msg f && (f.ftype == .number || f.ftype == .numberString) then some f
        else none := rfl

lemma firstXCand_mem {msg : String} {schema : List SchemaField} {f : SchemaField}
    (h : firstXCand msg schema = some f) : f ∈ schema := by
  induction schema with
  | nil => simp [firstXCand] at h
  | cons g t ih =>
    rw [firstXCand_cons] at h
    split at h
    · obtain rfl : g = f := by injection h
      exact List.mem_cons_self _ _
    · exact List.mem_cons_of_mem _ (ih h)

lemma lastYCand_mem {msg : String} {schema : List SchemaField} {f : SchemaField}
    (h : lastYCand msg schema = some f) : f ∈ schema := by
  induction schema with
  | nil => simp [lastYCand] at h
  | cons g t ih =>
    rw [lastYCand_cons] at h
    cases hy : lastYCand msg t with
    | some g' =>
      rw [hy] at h
      obtain rfl : g' = f := by injection h
      exact List.mem_cons_of_mem _ (ih hy)
    | none =>
      rw [hy] at h
      by_cases hc : (mentionedIn msg g && (g.ftype == .number || g.ftype == .numberString)) = true
      · rw [if_pos hc] at h
        obtain rfl : g = f := by injection h
        exact List.mem_cons_self _ _
      · rw [if_neg hc] at h
        exact absurd h (by simp)

lemma scanStep_fst (msg : String) (xy : Option String × Option String) (f : SchemaField) :
    (scanStep msg xy f).1 =
      if mentionedIn msg f && ((f.ftype == .date || f.ftype == .string) && !(strTruthy xy.1))
      then some f.name else xy.1 := by
  unfold scanStep
  rw [mentionedIn_def]
  cases hm : jsIncludes msg (strToLower f.name) <;>
    cases ht : ((f.ftype == .date || f.ftype == .string) && !(strTruthy xy.1)) <;>
      simp [hm, ht]

lemma scanStep_snd (msg : String) (xy : Option String × Option String) (f : SchemaField) :
    (scanStep msg xy f).2 =
      if mentionedIn msg f && (f.ftype == .number || f.ftype == .numberString)
      then some f.name else xy.2 := by
  unfold scanStep
  rw [mentionedIn_def]
  cases hm : jsIncludes msg (strToLower f.name) <;>
    cases ht : (f.ftype == .number || f.ftype == .numberString) <;>
      simp [hm, ht]

lemma scan_foldl_x (msg : String) (schema : List SchemaField)
    (hn : ∀ f ∈ schema, f.name ≠ "") (xy : Option String × Option String) :
    (schema.foldl (scanStep msg) xy).1 =
      if strTruthy xy.1 then xy.1
      else
        match firstXCand msg schema with
        | some f => some f.name
        | none => xy.1 := by
  induction schema generalizing xy with
  | nil =>
    simp only [List.foldl_nil, firstXCand]
    split <;> rfl
  | cons f t ih =>
    have hnt : ∀ g ∈ t, g.name ≠ "" := fun g hg => hn g (List.mem_cons_of_mem _ hg)
    rw [List.foldl_cons, ih hnt, firstXCand_cons]
    by_cases hx : strTruthy xy.1
    · have hstep : (scanStep msg xy f).1 = xy.1 := by
        rw [scanStep_fst, hx]
        simp
      rw [hstep, if_pos hx, if_pos hx]
    · have hx' : strTruthy xy.1 = false := Bool.eq_false_iff.mpr hx
      by_cases hc : (mentionedIn msg f && (f.ftype == .date || f.ftype == .string)) = true
      · have hstep : (scanStep msg xy f).1 = some f.name := by
          rw [scanStep_fst, hx']
          simp only [Bool.not_false, Bool.and_true]
          rw [if_pos hc]
        have hfname : f.name ≠ "" := hn f (List.mem_cons_self _ _)
        have hstept : strTruthy (scanStep msg xy f).1 = true := by
          rw [hstep]
          simp [strTruthy, hfname]
        rw [hstept, if_pos rfl, hstep, if_neg hx, if_pos hc]
      · have hstep : (scanStep msg xy f).1 = xy.1 := by
          rw [scanStep_fst, hx']
          simp only [Bool.not_false, Bool.and_true]
          rw [if_neg hc]
        rw [hstep, if_neg hx, if_neg hx, if_neg hc]

lemma scan_foldl_y (msg : String) (schema : List SchemaField)
    (xy : Option String × Option String) :
    (schema.foldl (scanStep msg) xy).2 =
      match lastYCand msg schema with
      | some f => some f.name
      | none => xy.2 := by
  induction schema generalizing xy with
  | nil => simp [lastYCand]
  | cons f t ih =>
    rw [List.foldl_cons, ih, lastYCand_cons]
    cases hy : lastYCand msg t with
    | some g => rfl
    | none =>
      rw [scanStep_snd]
      by_cases hc : (mentionedIn msg f && (f.ftype == .number || f.ftype == .numberString)) = true
      · rw [if_pos hc, if_pos hc]
      · rw [if_neg hc, if_neg hc]

/-- C5 amended: over a schema whose field names are all non-empty, the
resolved x-field is the name of the first mentioned date/string field
(first match wins) and the resolved y-field is the name of the last
mentioned number/numeric-string field (each numeric mention overwrites the
previous).  The non-emptiness proviso is forced by the counterexample
`mention_first_match_counterexample`: an empty-named candidate is falsy in
the `!xField` test, so it does not block later matches. -/
theorem mention_detection (userMessage : String) (schema : List SchemaField)
    (hn : ∀ f ∈ schema, f.name ≠ "") :
    (∀ f, firstXCand (strToLower userMessage) schema = some f →
      (resolveConfig userMessage schema).xField = f.name) ∧
    (∀ f, lastYCand (strToLower userMessage) schema = some f →
      (resolveConfig userMessage schema).yField = f.name) := by
  constructor
  · intro f hfx
    show jsOrStr (schema.foldl (scanStep (strToLower userMessage)) (none, none)).1
        (fallbackX schema) = f.name
    rw [scan_foldl_x (strToLower userMessage) schema hn (none, none), hfx]
    have hf : f.name ≠ "" := hn f (firstXCand_mem hfx)
    simp [jsOrStr, strTruthy, hf]
  · intro f hfy
    show jsOrStr (schema.foldl (scanStep (strToLower userMessage)) (none, none)).2
        (fallbackY schema) = f.name
    rw [scan_foldl_y (strToLower userMessage) schema (none, none), hfy]
    have hf : f.name ≠ "" := hn f (lastYCand_mem hfy)
    simp [jsOrStr, hf]

/-- C5 counterexample: over a schema whose first string-typed field is
named by the empty string (a legal JSON key) and the text `"a"`, the first
mentioned date/string field is the empty-named one, yet resolution returns
`"a"` — the first match does not win because the empty-string candidate is
falsy and is overwritten. -/
theorem mention_first_match_counterexample :
    (firstXCand (strToLower "a") schemaC5).map (·.name) = some "" ∧
    (resolveConfig "a" schemaC5).xField = "a" := by
  exact ⟨by decide, by decide⟩

/-- C5 witness: both `date` and `revenue` are mentioned; the date-typed
mention becomes x, the numeric mention becomes y. -/
theorem mention_detection_witness :
    (resolveConfig "scatter of revenue vs date" schemaC4).xField = "date" ∧
    (resolveConfig "scatter of revenue vs date" schemaC4).yField = "revenue" := by
  have h := mention_detection "scatter of revenue vs date" schemaC4 (by decide)
  exact ⟨h.1 { name := "date", ftype := .date, types := [.date], coverage := 100,
                samples := ["2024-01-01"] } (by decide),
         h.2 { name := "revenue", ftype := .number, types := [.number], coverage := 100,
                samples := ["10"] } (by decide)⟩

lemma jsOrStr_eq (a : Option String) (b : String) :
    jsOrStr a b = b ∨ ∃ s, a = some s ∧ s ≠ "" ∧ jsOrStr a b = s := by
  cases a with
  | none => exact Or.inl rfl
  | some s =>
    by_cases h : s = ""
    · left
      simp [jsOrStr, h]
    · right
      exact ⟨s, rfl, h, by simp [jsOrStr, h]⟩

lemma scanStep_fst_cases (msg : String) (xy : Option String × Option String)
    (f : SchemaField) :
    (scanStep msg xy f).1 = xy.1 ∨ (scanStep msg xy f).1 = some f.name := by
  rw [scanStep_fst]
  split
  · exact Or.inr rfl
  · exact Or.inl rfl

lemma scan_x_mem (msg : String) (schema : List SchemaField)
    (xy : Option String × Option String) :
    (schema.foldl (scanStep msg) xy).1 = xy.1 ∨
      ∃ f ∈ schema, (schema.foldl (scanStep msg) xy).1 = some f.name := by
  induction schema generalizing xy with
  | nil => exact Or.inl rfl
  | cons f t ih =>
    rw [List.foldl_cons]
    rcases ih (scanStep msg xy f) with h | ⟨g, hg, h⟩
    · rcases scanStep_fst_cases msg xy f with h' | h'
      · exact Or.inl (h.trans h')
      · exact Or.inr ⟨f, List.mem_cons_self _ _, h.trans h'⟩
    · exact Or.inr ⟨g, List.mem_cons_of_mem _ hg, h⟩

lemma map_name_find?_mem {schema : List SchemaField} {p : SchemaField → Bool} {s : String}
    (h : (schema.find? p).map (·.name) = some s) : s ∈ schema.map (·.name) := by
  cases hf : schema.find? p with
  | none => rw [hf] at h; cases h
  | some f =>
    rw [hf] at h
    obtain rfl : f.name = s := by injection h
    exact List.mem_map.mpr ⟨f, List.mem_of_find?_eq_some hf, rfl⟩

lemma fallbackX_spec (schema : List SchemaField) (hne : schema ≠ []) :
    fallbackX schema ∈ schema.map (·.name) ∧
    ((∀ f ∈ schema, f.name ≠ "") → fallbackX schema ≠ "") := by
  obtain ⟨f0, t, rfl⟩ : ∃ f0 t, schema = f0 :: t := by
    cases schema with
    | nil => exact absurd rfl hne
    | cons f0 t => exact ⟨f0, t, rfl⟩
  unfold fallbackX
  rcases jsOrStr_eq (((f0 :: t).find? (fun f => f.ftype == .date)).map (·.name)) _
    with h1 | ⟨s, hs, hsne, hv⟩
  · rw [h1]
    rcases jsOrStr_eq (((f0 :: t).find? (fun f => f.ftype == .string)).map (·.name)) _
      with h2 | ⟨s, hs, hsne, hv⟩
    · rw [h2]
      have hhead : (f0 :: t).head?.map (·.name) = some f0.name := rfl
      rw [hhead]
      by_cases h0 : f0.name = ""
      · constructor
        · have : jsOrStr (some f0.name) "" = f0.name := by simp [jsOrStr, h0]
          rw [this]
          exact List.mem_map.mpr ⟨f0, List.mem_cons_self _ _, rfl⟩
        · intro hn
          exact absurd h0 (hn f0 (List.mem_cons_self _ _))
      · have : jsOrStr (some f0.name) "" = f0.name := by simp [jsOrStr, h0]
        rw [this]
        exact ⟨List.mem_map.mpr ⟨f0, List.mem_cons_self _ _, rfl⟩, fun _ => h0⟩
    · rw [hv]
      exact ⟨map_name_find?_mem hs, fun _ => hsne⟩
  · rw [hv]
    exact ⟨map_name_find?_mem hs, fun _ => hsne⟩

/-- C10 amended: for every non-empty schema and every text, the resolved
x-field is the name of some field present in the schema (via a mention or
the fallback chain first date field, else first string field, else first
schema field).  It is non-empty provided every schema field name is
non-empty; the unqualified "never the empty string" of the claim fails
when a schema field is itself named by the empty string
(`resolved_xfield_empty_counterexample`). -/
theorem resolved_xfield_in_schema (userMessage : String) (schema : List SchemaField)
    (hne : schema ≠ []) :
    (resolveConfig userMessage schema).xField ∈ schema.map (·.name) ∧
    ((∀ f ∈ schema, f.name ≠ "") → (resolveConfig userMessage schema).xField ≠ "") := by
  show jsOrStr (schema.foldl (scanStep (strToLower userMessage)) (none, none)).1
      (fallbackX schema) ∈ schema.map (·.name) ∧
    ((∀ f ∈ schema, f.name ≠ "") →
      jsOrStr (schema.foldl (scanStep (strToLower userMessage)) (none, none)).1
        (fallbackX schema) ≠ "")
  rcases jsOrStr_eq (schema.foldl (scanStep (strToLower userMessage)) (none, none)).1
    (fallbackX schema) with h | ⟨s, hs, hsne, hv⟩
  · rw [h]
    exact fallbackX_spec schema hne
  · rw [hv]
    rcases scan_x_mem (strToLower userMessage) schema (none, none) with h0 | ⟨f, hf, hfx⟩
    · rw [h0] at hs
      cases hs
    · rw [hfx] at hs
      obtain rfl : f.name = s := by injection hs
      exact ⟨List.mem_map.mpr ⟨f, hf, rfl⟩, fun _ => hsne⟩

/-- C10 counterexample: over a schema whose only field is named by the
empty string, resolution returns the empty string as the x-field,
contradicting the claim's "never the empty string". -/
theorem resolved_xfield_empty_counterexample :
    (resolveConfig "z" schemaC10).xField = "" := by decide

/-- C10 witness: over the example schema (no field mentioned in the text),
the fallback x-field is a schema field name and non-empty. -/
theorem resolved_xfield_in_schema_witness :
    (resolveConfig "pie of totals" schemaC4).xField ∈ schemaC4.map (·.name) ∧
    (resolveConfig "pie of totals" schemaC4).xField ≠ "" :=
  ⟨(resolved_xfield_in_schema "pie of totals" schemaC4 (by decide)).1,
   (resolved_xfield_in_schema "pie of totals" schemaC4 (by decide)).2 (by decide)⟩

lemma countOf_cons (k : String) (e : String × FieldInfo) (st : List (String × FieldInfo)) :
    countOf k (e :: st) = if e.1 == k then e.2.count else countOf k st := by
  cases h : (e.1 == k) <;> simp [countOf, List.find?_cons, h]

lemma stepEntry_cons_hit {k0 k' : String} (i0 : FieldInfo) (v : JsVal)
    (rest : List (String × FieldInfo)) (h : (k0 == k') = true) :
    stepEntry ((k0, i0) :: rest) (k', v) =
      (k0, { types := addTypeOnce i0.types (inferType v), count := i0.count + 1,
             samples := updSamples i0.samples v }) :: rest := by
  simp [stepEntry, h]

lemma stepEntry_cons_miss {k0 k' : String} (i0 : FieldInfo) (v : JsVal)
    (rest : List (String × FieldInfo)) (h : (k0 == k') = false) :
    stepEntry ((k0, i0) :: rest) (k', v) = (k0, i0) :: stepEntry rest (k', v) := by
  simp [stepEntry, h]

lemma countOf_stepEntry (k k' : String) (v : JsVal) (st : List (String × FieldInfo)) :
    countOf k (stepEntry st (k', v)) = countOf k st + (if k' == k then 1 else 0) := by
  induction st with
  | nil =>
    show countOf k [(k', initInfo v)] = countOf k [] + _
    rw [countOf_cons]
    cases h : (k' == k) <;> simp [h, initInfo, countOf]
  | cons e rest ih =>
    obtain ⟨k0, i0⟩ := e
    cases he : (k0 == k') with
    | true =>
      have hk0 : k0 = k' := eq_of_beq he
      rw [stepEntry_cons_hit i0 v rest he, countOf_cons, countOf_cons]
      cases hk : (k0 == k) with
      | true =>
        have hkk : (k' == k) = true := by rw [← hk0]; exact hk
        simp [hkk]
      | false =>
        have hkk : (k' == k) = false := by rw [← hk0]; exact hk
        simp [hk, hkk]
    | false =>
      rw [stepEntry_cons_miss i0 v rest he, countOf_cons, countOf_cons]
      cases hk : (k0 == k) with
      | true =>
        have hne : (k' == k) = false := by
          refine beq_eq_false_iff_ne.mpr (fun h => ?_)
          have h1 : k0 = k := eq_of_beq hk
          exact absurd (by rw [h1, h] : k0 = k') (beq_eq_false_iff_ne.mp he)
        simp [hk, hne]
      | false =>
        simp [hk, ih]

lemma countOf_foldl_entries (k : String) (l : List (String × JsVal)) :
    ∀ st, countOf k (l.foldl stepEntry st) =
      countOf k st + l.countP (fun e => e.1 == k) := by
  induction l with
  | nil => intro st; simp
  | cons e t ih =>
    intro st
    obtain ⟨k', v⟩ := e
    rw [List.foldl_cons, ih, countOf_stepEntry, List.countP_cons]
    cases h : (k' == k) <;> simp [h] <;> omega

lemma countOf_foldl_rows (k : String) (data : List JsVal) :
    ∀ st, countOf k (data.foldl (fun st row => (rowEntriesJs row).foldl stepEntry st) st) =
      countOf k st +
        (data.map (fun r => (rowEntriesJs r).countP (fun e => e.1 == k))).sum := by
  induction data with
  | nil => intro st; simp
  | cons r t ih =>
    intro st
    rw [List.foldl_cons, ih, countOf_foldl_entries, List.map_cons, List.sum_cons]
    omega

lemma countOf_analyzeFields (k : String) (data : List JsVal) :
    countOf k (analyzeFields data) =
      (data.map (fun r => (rowEntriesJs r).countP (fun e => e.1 == k))).sum := by
  have h := countOf_foldl_rows k data []
  simpa [analyzeFields, countOf] using h

lemma stepEntry_keys (st : List (String × FieldInfo)) (k' : String) (v : JsVal) :
    (stepEntry st (k', v)).map Prod.fst =
      if k' ∈ st.map Prod.fst then st.map Prod.fst else st.map Prod.fst ++ [k'] := by
  induction st with
  | nil => simp [stepEntry]
  | cons e rest ih =>
    obtain ⟨k0, i0⟩ := e
    cases he : (k0 == k') with
    | true =>
      obtain rfl : k0 = k' := eq_of_beq he
      rw [stepEntry_cons_hit i0 v rest he]
      simp
    | false =>
      have hne : ¬ k' = k0 := fun h => by
        subst h
        simp at he
      rw [stepEntry_cons_miss i0 v rest he]
      by_cases hmem : k' ∈ rest.map Prod.fst
      · simp [ih, hmem, hne]
      · simp [ih, hmem, hne]

lemma stepEntry_keys_nodup (st : List (String × FieldInfo)) (e : String × JsVal)
    (h : (st.map Prod.fst).Nodup) : ((stepEntry st e).map Prod.fst).Nodup := by
  obtain ⟨k', v⟩ := e
  rw [stepEntry_keys]
  split
  · exact h
  · rename_i hmem
    simp [List.nodup_append, h, hmem]

lemma foldl_entries_keys_nodup (l : List (String × JsVal)) :
    ∀ st : List (String × FieldInfo), (st.map Prod.fst).Nodup →
      ((l.foldl stepEntry st).map Prod.fst).Nodup := by
  induction l with
  | nil => intro st h; simpa using h
  | cons e t ih =>
    intro st h
    rw [List.foldl_cons]
    exact ih _ (stepEntry_keys_nodup st e h)

lemma analyzeFields_keys_nodup (data : List JsVal) :
    ((analyzeFields data).map Prod.fst).Nodup := by
  have general : ∀ st : List (String × FieldInfo), (st.map Prod.fst).Nodup →
      ((data.foldl (fun st row => (rowEntriesJs row).foldl stepEntry st) st).map
        Prod.fst).Nodup := by
    induction data with
    | nil => intro st h; simpa using h
    | cons r t ih =>
      intro st h
      rw [List.foldl_cons]
      exact ih _ (foldl_entries_keys_nodup _ st h)
  exact general [] (by simp)

lemma countOf_of_mem (st : List (String × FieldInfo)) (e : String × FieldInfo)
    (hnd : (st.map Prod.fst).Nodup) (he : e ∈ st) : countOf e.1 st = e.2.count := by
  induction st with
  | nil => cases he
  | cons e0 rest ih =>
    rw [List.map_cons, List.nodup_cons] at hnd
    rcases List.mem_cons.mp he with rfl | hmem
    · rw [countOf_cons]
      simp
    · rw [countOf_cons]
      have hne : (e0.1 == e.1) = false := by
        refine beq_eq_false_iff_ne.mpr (fun h => ?_)
        exact hnd.1 (h ▸ List.mem_map.mpr ⟨e, hmem, rfl⟩)
      rw [hne]
      simpa using ih hnd.2 hmem

lemma countP_beq_nodup (l : List String) (k : String) (h : l.Nodup) :
    l.countP (fun x => x == k) = if k ∈ l then 1 else 0 := by
  induction l with
  | nil => simp
  | cons a t ih =>
    rw [List.nodup_cons] at h
    rw [List.countP_cons]
    cases ha : (a == k) with
    | true =>
      obtain rfl : a = k := eq_of_beq ha
      rw [ih h.2]
      simp [h.1]
    | false =>
      have hne : ¬ k = a := fun hh => by subst hh; simp at ha
      rw [ih h.2]
      by_cases hm : k ∈ t <;> simp [hm, hne]

lemma rowHasKey_iff (r : JsVal) (k : String) :
    rowHasKey r k = true ↔ k ∈ (rowEntriesJs r).map Prod.fst := by
  rw [rowHasKey, List.any_eq_true]
  constructor
  · rintro ⟨e, he, hbe⟩
    exact List.mem_map.mpr ⟨e, he, eq_of_beq hbe⟩
  · intro hm
    obtain ⟨e, he, rfl⟩ := List.mem_map.mp hm
    exact ⟨e, he, by simp⟩

lemma countP_entries_indicator (r : JsVal) (k : String)
    (h : ((rowEntriesJs r).map Prod.fst).Nodup) :
    (rowEntriesJs r).countP (fun e => e.1 == k) = if rowHasKey r k then 1 else 0 := by
  have h1 : ((rowEntriesJs r).map Prod.fst).countP (fun x => x == k) =
      (rowEntriesJs r).countP (fun e => e.1 == k) := by
    rw [List.countP_map]
    rfl
  rw [← h1, countP_beq_nodup _ _ h]
  by_cases hm : rowHasKey r k = true
  · rw [if_pos ((rowHasKey_iff r k).mp hm), if_pos hm]
  · rw [if_neg (fun hmem => hm ((rowHasKey_iff r k).mpr hmem)), if_neg hm]

lemma sum_indicator_rowsWithKey (data : List JsVal) (k : String) :
    (data.map (fun r => if rowHasKey r k then 1 else 0)).sum = rowsWithKey data k := by
  rw [rowsWithKey]
  induction data with
  | nil => rfl
  | cons r t ih =>
    rw [List.map_cons, List.sum_cons, List.filter_cons]
    cases h : rowHasKey r k <;> simp [h, ih] <;> omega

/-- C9: for every non-empty input row list whose object rows carry distinct
keys (the invariant of parsed JSON objects), `analyzeSchema` reports
`rowCount = data.length` and gives each schema field the coverage
`Math.round(rows containing the key / total rows * 100)`, where the
denominator counts all input rows — non-object rows are skipped when
accumulating statistics but still counted in the total. -/
theorem coverage_formula (data : List JsVal) (hne : data ≠ [])
    (hkeys : ∀ r ∈ data, ((rowEntriesJs r).map Prod.fst).Nodup) :
    ∀ sch n, analyzeSchema data = .ok (sch, n) →
      n = data.length ∧
      ∀ f ∈ sch, f.coverage =
        jsRound ((rowsWithKey data f.name : JsNum) / (data.length : JsNum) * 100) := by
  intro sch n h
  have hie : data.isEmpty = false := by
    cases data with
    | nil => exact absurd rfl hne
    | cons r t => rfl
  unfold analyzeSchema at h
  rw [hie] at h
  simp only [Bool.false_eq_true, if_false, Except.ok.injEq, Prod.mk.injEq] at h
  obtain ⟨hsch, hn⟩ := h
  refine ⟨hn.symm, ?_⟩
  intro f hf
  rw [← hsch] at hf
  obtain ⟨e, he, rfl⟩ := List.mem_map.mp hf
  show jsRound ((e.2.count : JsNum) / (data.length : JsNum) * 100) = _
  have hcount : e.2.count = rowsWithKey data e.1 := by
    have h1 : countOf e.1 (analyzeFields data) = e.2.count :=
      countOf_of_mem _ e (analyzeFields_keys_nodup data) he
    have h2 := countOf_analyzeFields e.1 data
    have h3 : (data.map (fun r => (rowEntriesJs r).countP (fun en => en.1 == e.1))).sum =
        (data.map (fun r => if rowHasKey r e.1 then 1 else 0)).sum := by
      congr 1
      exact List.map_congr_left (fun r hr => countP_entries_indicator r e.1 (hkeys r hr))
    rw [h1] at h2
    rw [h2, h3, sum_indicator_rowsWithKey]
  rw [hcount]

/-- C9 witness: over one object row `{a: 1}` and one non-object row `5`,
the only field `a` has coverage `round(1 / 2 * 100) = 50` — the non-object
row is skipped for statistics but counted in the denominator. -/
theorem coverage_formula_witness :
    2 = dataC9W.length ∧
    ∀ f ∈ [({ name := "a", ftype := .number, types := [.number], coverage := 50,
              samples := ["1"] } : SchemaField)],
      f.coverage =
        jsRound ((rowsWithKey dataC9W f.name : JsNum) / (dataC9W.length : JsNum) * 100) :=
  coverage_formula dataC9W (by unfold dataC9W; exact List.cons_ne_nil _ _) (by decide) _ 2
    (by rfl)

end ChartGen
